import Mathlib

/-!
Shallow embedding of the `simple-service` repository (Go): the `token`
package (JWT issuance and verification) and the HTTP handlers of
`main.go` (auth middleware, search, create, delete).

Conventions of the embedding:
* Machine integers (`int`, `int64`) are `Int`; Unix times are `Int` seconds.
* Go's `(value, err)` returns, together with the possibility of a runtime
  panic (failed interface type assertion, out-of-range slice index,
  explicit `panic(err)`), are the three constructors of `GoRes`.
* The jwt-go library (an external collaborator) is modelled symbolically:
  a compact token string is represented by the structure it decodes to
  (`JwtToken`), and HMAC is a perfect MAC — a signature is the pair of the
  signing key and the signed payload, and verification is equality.
* `bson.ObjectId` values are represented by their canonical lowercase hex
  rendering (the form in which mgo serializes them to JSON), as a `String`.
-/

set_option autoImplicit false

namespace Svc

/-- Result of running a Go function: a normal return value, a non-nil
`error` return, or a runtime panic. -/
inductive GoRes (α : Type) where
  | ok (a : α)
  | error (msg : String)
  | panics
deriving DecidableEq

/-- `true` exactly when the Go call returned a non-nil error. -/
def GoRes.isError {α : Type} : GoRes α → Bool
  | .error _ => true
  | _ => false

/-- A JSON value as decoded into a Go `interface\x7b\x7d` by `encoding/json`
(numbers decode to `float64`; the numeric values this service produces and
inspects are integral, so they are modelled as `Int`). -/
inductive JVal where
  | str (s : String)
  | num (n : Int)
  | boolean (b : Bool)
  | null
deriving DecidableEq

/-- `jwt.MapClaims`: the decoded claim set of a token, a finite map from
claim name to JSON value (association list, first binding wins). -/
abbrev Claims := List (String × JVal)

/-- The signing algorithm named in a token's header. -/
inductive Alg where
  | HS256
  | HS384
  | HS512
  | RS256
  | algNone
deriving DecidableEq

/-- Whether the algorithm is in jwt-go's symmetric HMAC family
(`*jwt.SigningMethodHMAC`). -/
def Alg.isHMAC : Alg → Bool
  | .HS256 | .HS384 | .HS512 => true
  | _ => false

/-- Symbolic model of an HMAC signature: the signature jwt-go computes over
a token's signing string is determined by the key, the algorithm and the
claim set, and (perfect-MAC assumption) determines them. -/
structure Sig where
  key : String
  alg : Alg
  payload : Claims
deriving DecidableEq

/-- Computing the signature of a token (`token.SignedString` /
`hmethod.Sign`). -/
def macSign (key : String) (alg : Alg) (payload : Claims) : Sig :=
  ⟨key, alg, payload⟩

/-- A structurally well-formed compact JWT: the data a token string that
reaches jwt-go's verification step decodes to. -/
structure JwtToken where
  alg : Alg
  claims : Claims
  sig : Sig
deriving DecidableEq

/-- `token.Signed` — "the structure of signed token string and the expiry
timestamp".  The token string is represented by the `JwtToken` it encodes. -/
structure Signed where
  token : JwtToken
  Expires : Int
deriving DecidableEq

/-- `token.UserPersistentData` — "data that lives through requests as
context".  `PermissionLevel` is a `float64` in Go holding a decoded JSON
number; modelled as `Int` (all values this service issues are integral). -/
structure UserPersistentData where
  ID : String
  PermissionLevel : Int
deriving DecidableEq

/-- The claim set of the `userClaims` structure built by `token.Generate`,
as it serializes to JSON: `id` (the ObjectId's hex string), `email`,
`permissionLevel`, and `exp` from the embedded `jwt.StandardClaims`
(whose other, unset fields are `omitempty` and do not serialize). -/
def generateClaims (now : Int) (id email : String) (permissionLevel : Int) :
    Claims :=
  [("id", .str id), ("email", .str email),
   ("permissionLevel", .num permissionLevel), ("exp", .num (now + 24 * 60 * 60))]

/-- `token.Generate` (src/unnamed/part_001 lines 39-61): builds the
`userClaims` structure with expiration `time.Now().Add(time.Hour * 24)`,
signs it with HS256 under `JWT_SIGNER_SECRET`, and returns the signed
string plus the expiry timestamp.  `now` is the issuance time and `secret`
the configured signing secret; HMAC signing cannot fail, so the error path
of the Go code is dead in this model. -/
def Generate (now : Int) (secret : String) (id : String) (email : String)
    (permissionLevel : Int) : Signed :=
  { token := { alg := .HS256
               claims := generateClaims now id email permissionLevel
               sig := macSign secret .HS256 (generateClaims now id email permissionLevel) }
    Expires := now + 24 * 60 * 60 }

/-- The numeric value of a registered claim, when present with a numeric
value (jwt-go's `MapClaims` time checks switch on `float64` and ignore the
claim when it is absent or of another type). -/
def numClaim (c : Claims) (k : String) : Option Int :=
  match c.lookup k with
  | some (.num n) => some n
  | _ => none

/-- `jwt.MapClaims.Valid` at time `now`: `exp` (valid while `now ≤ exp`),
`iat` (valid once `iat ≤ now`) and `nbf` (valid once `nbf ≤ now`), each
check passing when the claim is absent or non-numeric — and also, per
jwt-go's `verifyExp`/`verifyIat`/`verifyNbf`, when the claim's value is
literally 0, which the library treats as unset (the check returns
`!required`, and these checks are non-required). -/
def claimsValid (now : Int) (c : Claims) : Bool :=
  (match numClaim c "exp" with
   | some e => if e = 0 then true else decide (now ≤ e)
   | none => true) &&
  (match numClaim c "iat" with
   | some i => if i = 0 then true else decide (i ≤ now)
   | none => true) &&
  (match numClaim c "nbf" with
   | some n => if n = 0 then true else decide (n ≤ now)
   | none => true)

/-- `jwt.Parse` with the key function of `token.FromHeader`
(src/unnamed/part_001 lines 95-102): reject a signing method outside the
HMAC family, then validate the registered time claims, then verify the
signature against `JWT_SIGNER_SECRET`.  Error messages stand for the
non-nil errors jwt-go returns at each stage. -/
def jwtParse (now : Int) (secret : String) (t : JwtToken) : GoRes JwtToken :=
  if t.alg.isHMAC = false then .error "Unexpected signing method"
  else if claimsValid now t.claims = false then .error "token validation failed"
  else if t.sig = macSign secret t.alg t.claims then .ok t
  else .error "signature is invalid"

/-- `token.populatePersistentObjectWithTokenData` (src/unnamed/part_001
lines 63-79).  Go's `claims["id"] == nil` holds when the key is absent or
its value is JSON null; the subsequent unchecked interface type assertions
`claims["id"].(string)` and `claims["permissionLevel"].(float64)` panic on
a value of any other type. -/
def populatePersistentObjectWithTokenData (claims : Claims) :
    GoRes UserPersistentData :=
  match claims.lookup "id" with
  | none | some .null => .error "No id claim in token"
  | some idv =>
    match claims.lookup "permissionLevel" with
    | none | some .null => .error "No permissionLevel claim in token"
    | some pv =>
      match idv with
      | .str s =>
        match pv with
        | .num n => .ok ⟨s, n⟩
        | _ => .panics
      | _ => .panics

/-- The equivalence classes of an `Authorization` header value under
`token.FromHeader`'s processing (trim an optional `Bearer ` prefix, test
for emptiness, hand the rest to `jwt.Parse`):  the empty string; exactly
the bearer prefix; the prefix followed by a decodable compact JWT; a bare
decodable compact JWT (no prefix — the code does not require one); and any
other non-empty string, which trims to a non-empty string that fails to
decode.  A serialized JWT is base64url segments and never starts with
`Bearer `, so trimming classifies faithfully. -/
inductive HeaderString where
  | emptyStr
  | bearerEmpty
  | bearerJwt (t : JwtToken)
  | bareJwt (t : JwtToken)
  | otherStr
deriving DecidableEq

/-- What a header value leaves behind after
`strings.TrimPrefix(token, "Bearer ")`. -/
inductive TokenStr where
  | emptyTok
  | jwtTok (t : JwtToken)
  | garbage
deriving DecidableEq

/-- `strings.TrimPrefix(h0, "Bearer ")` on each class of header value. -/
def HeaderString.trimBearer : HeaderString → TokenStr
  | .emptyStr | .bearerEmpty => .emptyTok
  | .bearerJwt t | .bareJwt t => .jwtTok t
  | .otherStr => .garbage

/-- `token.FromHeader` (src/unnamed/part_001 lines 82-115): take the first
header value if any, trim the bearer prefix, reject an empty token string,
parse and verify with `jwtParse`, and on a valid token extract the
persistent data.  (The final `Invalid token` return of the Go code is
unreachable: a nil parse error implies a valid token.) -/
def FromHeader (now : Int) (secret : String) (h : List HeaderString) :
    GoRes UserPersistentData :=
  let tok : TokenStr :=
    match h with
    | [] => .emptyTok
    | h0 :: _ => h0.trimBearer
  match tok with
  | .emptyTok => .error "No token found"
  | .garbage => .error "token contains an invalid number of segments"
  | .jwtTok t =>
    match jwtParse now secret t with
    | .error e => .error e
    | .panics => .panics
    | .ok t2 => populatePersistentObjectWithTokenData t2.claims

/-- Unfolding lemma: verifying a header that carries the bearer prefix and
a decodable token hands the token to `jwtParse` and, when it is valid,
extracts the persistent data. -/
theorem FromHeader_bearerJwt (now : Int) (secret : String) (t : JwtToken) :
    FromHeader now secret [HeaderString.bearerJwt t] =
      match jwtParse now secret t with
      | .error e => .error e
      | .panics => .panics
      | .ok t2 => populatePersistentObjectWithTokenData t2.claims := rfl

/-- Same unfolding for a header value that is a bare token without the
bearer prefix: `TrimPrefix` leaves it unchanged and it is parsed all the
same. -/
theorem FromHeader_bareJwt (now : Int) (secret : String) (t : JwtToken) :
    FromHeader now secret [HeaderString.bareJwt t] =
      match jwtParse now secret t with
      | .error e => .error e
      | .panics => .panics
      | .ok t2 => populatePersistentObjectWithTokenData t2.claims := rfl

/-- The time-claim validation of a generated claim set passes whenever the
verification time is at most the expiry (`iat` and `nbf` are not set, and a
zero expiry passes outright). -/
theorem claimsValid_generateClaims (v now : Int) (id email : String) (pl : Int)
    (h : v ≤ now + 24 * 60 * 60) :
    claimsValid v (generateClaims now id email pl) = true := by
  show ((if now + 24 * 60 * 60 = 0 then true else decide (v ≤ now + 24 * 60 * 60)) &&
      true && true) = true
  simp
  omega

/-- A token carrying an HMAC algorithm, a claim set that passes time
validation, and the signature of the verification secret over its own
payload parses successfully. -/
theorem jwtParse_ok (now : Int) (secret : String) (c : Claims)
    (h : claimsValid now c = true) :
    jwtParse now secret ⟨.HS256, c, macSign secret .HS256 c⟩ =
      GoRes.ok ⟨.HS256, c, macSign secret .HS256 c⟩ := by
  unfold jwtParse
  simp [Alg.isHMAC, h]

/-- Claim extraction on a generated claim set recovers the id and
permission level. -/
theorem populate_generateClaims (now : Int) (id email : String) (pl : Int) :
    populatePersistentObjectWithTokenData (generateClaims now id email pl) =
      GoRes.ok ⟨id, pl⟩ := rfl

/-- Claim C1: issuing a token with `Generate` for any subject id, email and
permission level and verifying the resulting token string with `FromHeader`
succeeds and returns the subject identifier and permission level unchanged,
and the expiration returned by `Generate` is the issuance time plus 24
hours. -/
theorem generate_fromHeader_roundtrip (now : Int) (secret id email : String)
    (pl : Int) :
    (Generate now secret id email pl).Expires = now + 24 * 60 * 60 ∧
    FromHeader now secret
        [HeaderString.bearerJwt (Generate now secret id email pl).token] =
      GoRes.ok ⟨id, pl⟩ := by
  refine ⟨rfl, ?_⟩
  rw [FromHeader_bearerJwt]
  have hcv : claimsValid now (generateClaims now id email pl) = true :=
    claimsValid_generateClaims now now id email pl (by omega)
  have hok : jwtParse now secret (Generate now secret id email pl).token =
      GoRes.ok (Generate now secret id email pl).token :=
    jwtParse_ok now secret (generateClaims now id email pl) hcv
  rw [hok]
  exact populate_generateClaims now id email pl

/-- A token whose header names a non-HMAC algorithm is rejected by the key
function before any further checking. -/
theorem jwtParse_badAlg (now : Int) (secret : String) (t : JwtToken)
    (halg : t.alg.isHMAC = false) :
    jwtParse now secret t = .error "Unexpected signing method" := by
  unfold jwtParse
  simp [halg]

/-- A token whose registered time claims fail validation is rejected. -/
theorem jwtParse_invalid_claims (now : Int) (secret : String) (t : JwtToken)
    (halg : t.alg.isHMAC = true) (hcv : claimsValid now t.claims = false) :
    jwtParse now secret t = .error "token validation failed" := by
  unfold jwtParse
  simp [halg, hcv]

/-- A token whose signature is not the verification secret's signature over
its own payload is rejected. -/
theorem jwtParse_sig_mismatch (now : Int) (secret : String) (t : JwtToken)
    (halg : t.alg.isHMAC = true) (hcv : claimsValid now t.claims = true)
    (hsig : t.sig ≠ macSign secret t.alg t.claims) :
    jwtParse now secret t = .error "signature is invalid" := by
  unfold jwtParse
  simp [halg, hcv, hsig]

/-- `jwtParse` never panics: every outcome is a value or an error. -/
theorem jwtParse_not_panics (now : Int) (secret : String) (t : JwtToken) :
    jwtParse now secret t ≠ .panics := by
  unfold jwtParse
  by_cases h1 : t.alg.isHMAC = false
  · simp [h1]
  · by_cases h2 : claimsValid now t.claims = false
    · simp [h1, h2]
    · by_cases h3 : t.sig = macSign secret t.alg t.claims
      · simp [h1, h2, h3]
      · simp [h1, h2, h3]

/-- A successful `jwtParse` returns the token it was given. -/
theorem jwtParse_ok_eq (now : Int) (secret : String) (t t2 : JwtToken)
    (h : jwtParse now secret t = .ok t2) : t2 = t := by
  unfold jwtParse at h
  by_cases h1 : t.alg.isHMAC = false
  · simp [h1] at h
  · by_cases h2 : claimsValid now t.claims = false
    · simp [h1, h2] at h
    · by_cases h3 : t.sig = macSign secret t.alg t.claims
      · simp [h1, h2, h3] at h
        exact h.symm
      · simp [h1, h2, h3] at h

/-- Claim extraction fails when the `id` claim is absent. -/
theorem populate_no_id (c : Claims) (h : List.lookup "id" c = none) :
    populatePersistentObjectWithTokenData c = .error "No id claim in token" := by
  unfold populatePersistentObjectWithTokenData
  rw [h]

/-- Claim extraction never succeeds when the `permissionLevel` claim is
absent: whatever the `id` claim holds, the result is one of the two
missing-claim errors. -/
theorem populate_no_perm (c : Claims)
    (h : List.lookup "permissionLevel" c = none) :
    (populatePersistentObjectWithTokenData c).isError = true := by
  rcases hid : List.lookup "id" c with _ | v
  · unfold populatePersistentObjectWithTokenData
    rw [hid]
    rfl
  · rcases v with s | n | b | _ <;>
      (unfold populatePersistentObjectWithTokenData; rw [hid]) <;>
      first
        | rfl
        | (rw [h]; rfl)

/-- Claim C3 (amended): `FromHeader` returns an error — and never a
successful result — for a token signed with a different secret, a token
whose expiration is in the past (and nonzero: jwt-go's `verifyExp` treats a
numeric `exp` of exactly 0 as unset, and such a well-signed token is
accepted), a token whose algorithm is outside the HMAC family, a token
missing the `id` or `permissionLevel` claim, and an empty or absent token
string; a present claim of the wrong dynamic type, however, makes the
extraction's unchecked interface type assertion panic instead of returning
an error (still never a success). -/
theorem fromHeader_failure_cases (now : Int) (secret : String) :
    (∀ s1 id email pl, s1 ≠ secret →
      FromHeader now secret
          [HeaderString.bearerJwt (Generate now s1 id email pl).token] =
        .error "signature is invalid") ∧
    (∀ (t : JwtToken) (e : Int), numClaim t.claims "exp" = some e → e < now →
      e ≠ 0 →
      (FromHeader now secret [HeaderString.bearerJwt t]).isError = true) ∧
    (∀ (s : String) (pl : Int),
      FromHeader now secret
          [HeaderString.bearerJwt
            ⟨.HS256, [("id", .str s), ("permissionLevel", .num pl), ("exp", .num 0)],
             macSign secret .HS256
               [("id", .str s), ("permissionLevel", .num pl), ("exp", .num 0)]⟩] =
        .ok ⟨s, pl⟩) ∧
    (∀ t : JwtToken, t.alg.isHMAC = false →
      FromHeader now secret [HeaderString.bearerJwt t] =
        .error "Unexpected signing method") ∧
    (∀ t : JwtToken, List.lookup "id" t.claims = none →
      (FromHeader now secret [HeaderString.bearerJwt t]).isError = true) ∧
    (∀ t : JwtToken, List.lookup "permissionLevel" t.claims = none →
      (FromHeader now secret [HeaderString.bearerJwt t]).isError = true) ∧
    (FromHeader now secret [] = .error "No token found") ∧
    (FromHeader now secret [HeaderString.emptyStr] = .error "No token found") ∧
    (FromHeader now secret [HeaderString.bearerEmpty] = .error "No token found") ∧
    (∀ k pl : Int,
      FromHeader now secret
          [HeaderString.bearerJwt
            ⟨.HS256, [("id", .num k), ("permissionLevel", .num pl)],
             macSign secret .HS256 [("id", .num k), ("permissionLevel", .num pl)]⟩] =
        .panics) ∧
    (∀ s p : String,
      FromHeader now secret
          [HeaderString.bearerJwt
            ⟨.HS256, [("id", .str s), ("permissionLevel", .str p)],
             macSign secret .HS256 [("id", .str s), ("permissionLevel", .str p)]⟩] =
        .panics) := by
  refine ⟨?_, ?_, ?_, ?_, ?_, ?_, rfl, rfl, rfl, ?_, ?_⟩
  · intro s1 id email pl hne
    rw [FromHeader_bearerJwt]
    have hcv : claimsValid now (generateClaims now id email pl) = true :=
      claimsValid_generateClaims now now id email pl (by omega)
    have hsig : (Generate now s1 id email pl).token.sig ≠
        macSign secret (Generate now s1 id email pl).token.alg
          (Generate now s1 id email pl).token.claims := by
      intro hsig
      exact hne (congrArg Sig.key hsig)
    rw [jwtParse_sig_mismatch now secret (Generate now s1 id email pl).token
      rfl hcv hsig]
  · intro t e hexp hlt hne
    rw [FromHeader_bearerJwt]
    rcases Bool.eq_false_or_eq_true t.alg.isHMAC with halg | halg
    · have hcv : claimsValid now t.claims = false := by
        unfold claimsValid
        rw [hexp]
        have hd : decide (now ≤ e) = false := by
          simp only [decide_eq_false_iff_not]
          omega
        simp [hne, hd]
      rw [jwtParse_invalid_claims now secret t halg hcv]
      rfl
    · rw [jwtParse_badAlg now secret t halg]
      rfl
  · intro s pl
    rw [FromHeader_bearerJwt,
      jwtParse_ok now secret
        [("id", .str s), ("permissionLevel", .num pl), ("exp", .num 0)] rfl]
    rfl
  · intro t halg
    rw [FromHeader_bearerJwt, jwtParse_badAlg now secret t halg]
  · intro t hid
    rw [FromHeader_bearerJwt]
    cases hp : jwtParse now secret t with
    | error e => rfl
    | panics => exact absurd hp (jwtParse_not_panics now secret t)
    | ok t2 =>
      have ht : t2 = t := jwtParse_ok_eq now secret t t2 hp
      show (populatePersistentObjectWithTokenData t2.claims).isError = true
      rw [ht, populate_no_id t.claims hid]
      rfl
  · intro t hperm
    rw [FromHeader_bearerJwt]
    cases hp : jwtParse now secret t with
    | error e => rfl
    | panics => exact absurd hp (jwtParse_not_panics now secret t)
    | ok t2 =>
      have ht : t2 = t := jwtParse_ok_eq now secret t t2 hp
      show (populatePersistentObjectWithTokenData t2.claims).isError = true
      rw [ht]
      exact populate_no_perm t.claims hperm
  · intro k pl
    rw [FromHeader_bearerJwt,
      jwtParse_ok now secret [("id", .num k), ("permissionLevel", .num pl)] rfl]
    rfl
  · intro s p
    rw [FromHeader_bearerJwt,
      jwtParse_ok now secret [("id", .str s), ("permissionLevel", .str p)] rfl]
    rfl

/-- Witness for `fromHeader_failure_cases` at concrete inputs: a token
signed with secret `"j"` verified against `"k"`; a token expired at time 1
verified at time 3; a well-signed token with `exp` 0 accepted at time 3;
an RS256 token; tokens missing the `id` or the `permissionLevel` claim;
the empty header list; and a wrong-typed numeric `id` claim. -/
theorem fromHeader_failure_cases_witness :
    FromHeader 3 "k" [HeaderString.bearerJwt (Generate 3 "j" "i" "e" 2).token] =
      .error "signature is invalid" ∧
    (FromHeader 3 "k"
        [HeaderString.bearerJwt
          ⟨.HS256, [("exp", .num 1)], macSign "k" .HS256 [("exp", .num 1)]⟩]).isError = true ∧
    FromHeader 3 "k"
        [HeaderString.bearerJwt
          ⟨.HS256, [("id", .str "a"), ("permissionLevel", .num 7), ("exp", .num 0)],
           macSign "k" .HS256
             [("id", .str "a"), ("permissionLevel", .num 7), ("exp", .num 0)]⟩] =
      .ok ⟨"a", 7⟩ ∧
    FromHeader 3 "k" [HeaderString.bearerJwt ⟨.RS256, [], macSign "k" .RS256 []⟩] =
      .error "Unexpected signing method" ∧
    (FromHeader 3 "k"
        [HeaderString.bearerJwt ⟨.HS256, [], macSign "k" .HS256 []⟩]).isError = true ∧
    (FromHeader 3 "k"
        [HeaderString.bearerJwt
          ⟨.HS256, [("id", .str "a")], macSign "k" .HS256 [("id", .str "a")]⟩]).isError = true ∧
    FromHeader 3 "k" [] = .error "No token found" ∧
    FromHeader 3 "k"
        [HeaderString.bearerJwt
          ⟨.HS256, [("id", .num 5), ("permissionLevel", .num 1)],
           macSign "k" .HS256 [("id", .num 5), ("permissionLevel", .num 1)]⟩] =
      .panics := by
  obtain ⟨h1, h2, h3, h4, h5, h6, h7, _, _, h10, _⟩ :=
    fromHeader_failure_cases 3 "k"
  exact ⟨h1 "j" "i" "e" 2 (by decide), h2 _ 1 rfl (by decide) (by decide),
    h3 "a" 7, h4 _ rfl, h5 _ rfl, h6 _ rfl, h7, h10 5 1⟩

/-- Counterexample to claim C3 as stated: a well-signed, unexpired HMAC
token whose `id` claim is present but holds a number rather than a string
does not make `FromHeader` return an error — the unchecked type assertion
in `populatePersistentObjectWithTokenData` panics. -/
theorem fromHeader_wrongType_cex :
    FromHeader 0 "secret"
        [HeaderString.bearerJwt
          ⟨.HS256, [("id", .num 5), ("permissionLevel", .num 1)],
           macSign "secret" .HS256 [("id", .num 5), ("permissionLevel", .num 1)]⟩] =
      .panics := by
  rw [FromHeader_bearerJwt,
    jwtParse_ok 0 "secret" [("id", .num 5), ("permissionLevel", .num 1)] rfl]
  rfl

/-- The outcome of one run of the `isAuthenticated` middleware
(src/main.go lines 96-114, identical in src/unnamed/part_000 lines 36-54):
either the wrapped handler is invoked with the decoded identity attached to
the request context, or an error response is written with an HTTP status
code, or the goroutine panics (inside `token.FromHeader`) and neither
happens. -/
inductive MWOutcome where
  | callNext (u : UserPersistentData)
  | respondError (msg : String) (code : Nat)
  | panics
deriving DecidableEq

/-- `isAuthenticated`: if the request has no `Authorization` header, write
a 400 error `No auth header found`; otherwise run `token.FromHeader` on the
header values, write its error at 400 (`http.StatusBadRequest`) on failure,
and invoke the wrapped handler on success. -/
def isAuthenticated (now : Int) (secret : String)
    (authHeader : Option (List HeaderString)) : MWOutcome :=
  match authHeader with
  | some h =>
    match FromHeader now secret h with
    | .error e => .respondError e 400
    | .ok u => .callNext u
    | .panics => .panics
  | none => .respondError "No auth header found" 400

/-- Claim C2: the middleware invokes the wrapped handler exactly when
`FromHeader` succeeds on the request's `Authorization` header; whenever
`FromHeader` returns an error, or the header is absent, the handler is not
invoked and an error response is written; and when `FromHeader` panics the
handler is not invoked either. -/
theorem isAuthenticated_iff (now : Int) (secret : String)
    (ah : Option (List HeaderString)) :
    (∀ u, isAuthenticated now secret ah = .callNext u ↔
      ∃ h, ah = some h ∧ FromHeader now secret h = .ok u) ∧
    (∀ h e, ah = some h → FromHeader now secret h = .error e →
      isAuthenticated now secret ah = .respondError e 400) ∧
    (ah = none →
      isAuthenticated now secret ah = .respondError "No auth header found" 400) ∧
    (∀ h, ah = some h → FromHeader now secret h = .panics →
      isAuthenticated now secret ah = .panics) := by
  refine ⟨?_, ?_, ?_, ?_⟩
  · intro u
    constructor
    · intro hc
      cases ah with
      | none => simp [isAuthenticated] at hc
      | some h =>
        refine ⟨h, rfl, ?_⟩
        cases hf : FromHeader now secret h with
        | ok u2 =>
          simp only [isAuthenticated, hf, MWOutcome.callNext.injEq] at hc
          rw [hc]
        | error e => simp [isAuthenticated, hf] at hc
        | panics => simp [isAuthenticated, hf] at hc
    · rintro ⟨h, rfl, hf⟩
      simp [isAuthenticated, hf]
  · rintro h e rfl hf
    simp [isAuthenticated, hf]
  · rintro rfl
    rfl
  · rintro h rfl hf
    simp [isAuthenticated, hf]

/-- Witness for `isAuthenticated_iff`: a request without an `Authorization`
header is answered with the 400 error response. -/
theorem isAuthenticated_iff_witness :
    isAuthenticated 0 "s" none = .respondError "No auth header found" 400 :=
  (isAuthenticated_iff 0 "s" none).2.2.1 rfl

/-- Counterexample to claim C4 as stated: a request whose `Authorization`
header does not carry a bearer-scheme token (a bare token string with no
`Bearer ` prefix) is not rejected — `TrimPrefix` leaves the value intact,
it verifies, and the wrapped handler is invoked. -/
theorem bearer_scheme_not_required_cex :
    isAuthenticated 0 "s"
        (some [HeaderString.bareJwt (Generate 0 "s" "a" "e" 1).token]) =
      MWOutcome.callNext ⟨"a", 1⟩ := rfl

/-- Claim C4 (amended): when the `Authorization` header is absent, or its
value yields an empty token string after optional `Bearer ` trimming, the
middleware writes an error response (`No auth header found` resp.
`No token found`) at HTTP status 400; the bearer scheme itself is not
required — a bare header value is treated as the raw token and the handler
runs whenever it verifies. -/
theorem isAuthenticated_reject_cases (now : Int) (secret : String) :
    isAuthenticated now secret none = .respondError "No auth header found" 400 ∧
    isAuthenticated now secret (some []) = .respondError "No token found" 400 ∧
    isAuthenticated now secret (some [HeaderString.emptyStr]) =
      .respondError "No token found" 400 ∧
    isAuthenticated now secret (some [HeaderString.bearerEmpty]) =
      .respondError "No token found" 400 ∧
    (∀ t u, FromHeader now secret [HeaderString.bareJwt t] = .ok u →
      isAuthenticated now secret (some [HeaderString.bareJwt t]) = .callNext u) := by
  refine ⟨rfl, rfl, rfl, rfl, ?_⟩
  intro t u hf
  simp [isAuthenticated, hf]

/-- Witness for `isAuthenticated_reject_cases`: a verifying bare token
under secret `"w"` reaches the wrapped handler. -/
theorem isAuthenticated_reject_cases_witness :
    isAuthenticated 0 "w"
        (some [HeaderString.bareJwt (Generate 0 "w" "b" "e" 2).token]) =
      MWOutcome.callNext ⟨"b", 2⟩ :=
  (isAuthenticated_reject_cases 0 "w").2.2.2.2 _ ⟨"b", 2⟩ rfl

/-- The geo sub-document of an electrician record (src/main.go lines
32-35).  The `Type` field carries the tag `json:"-"`: the JSON decoder
never sets it, so it holds the zero value until the handler assigns it.
Coordinates are `float64`; modelled as `Rat` (no floating-point rounding is
at stake in any claim). -/
structure Geo where
  type : String
  coordinates : List Rat
deriving DecidableEq

/-- An electrician record (src/main.go lines 20-30); the `_id` field is a
`bson.ObjectId`, represented by its hex string. -/
structure Electrician where
  id : String
  name : String
  addressLine1 : String
  addressLine2 : String
  city : String
  county : String
  zip : String
  phone : String
  location : Geo
deriving DecidableEq

/-- The effect of a decodable JSON create body on the record it is decoded
over: each string field holds the value the record ends with (absent fields
leave the zero value), `id` is the body's `_id` when present
(`json.Decode` merges over the pre-assigned fresh id), and `coordinates` is
present exactly when the body carries `location.coordinates`. -/
structure BodyFields where
  id : Option String
  name : String
  addressLine1 : String
  addressLine2 : String
  city : String
  county : String
  zip : String
  phone : String
  coordinates : Option (List Rat)
deriving DecidableEq

/-- Outcome of `json.NewDecoder(r.Body).Decode` on a create request. -/
inductive Body where
  | decodes (bf : BodyFields)
  | invalid
deriving DecidableEq

/-- The record built by `create` (src/main.go lines 250-255): start from
`electrician{ID: bson.NewObjectId()}` with `freshId`, decode the body over
it, then assign `electrician.Location.Type = "Point"` — unconditionally,
before the decode error is even checked. -/
def buildElectrician (freshId : String) (bf : BodyFields) : Electrician :=
  { id := bf.id.getD freshId
    name := bf.name
    addressLine1 := bf.addressLine1
    addressLine2 := bf.addressLine2
    city := bf.city
    county := bf.county
    zip := bf.zip
    phone := bf.phone
    location := { type := "Point", coordinates := bf.coordinates.getD [] } }

/-- Observable outcome of one run of a create handler: the HTTP status
written, the collection contents afterwards, and the record echoed back on
201 (none otherwise). -/
structure CreateResult where
  status : Nat
  store : List Electrician
  created : Option Electrician
deriving DecidableEq

/-- `create` (src/main.go lines 245-274): 400 `Icorrect body` on a decode
error with no insert; otherwise insert the built record and answer 201 with
it, or 500 `Database error` if the insert fails. -/
def create (freshId : String) (store : List Electrician) (insertFails : Bool)
    (body : Body) : CreateResult :=
  match body with
  | .invalid => ⟨400, store, none⟩
  | .decodes bf =>
    let e := buildElectrician freshId bf
    if insertFails then ⟨500, store, none⟩
    else ⟨201, store ++ [e], some e⟩

/-- The record type of the variant service (src/unnamed/part_000 lines
18-22). -/
structure Electrician0 where
  id : String
  name : String
  address : String
deriving DecidableEq

/-- Decoder outcome for the variant's create body (the variant decodes into
a zero-valued record, assigning no fresh id). -/
inductive Body0 where
  | decodes0 (e : Electrician0)
  | invalid0
deriving DecidableEq

/-- Observable outcome of the variant create handler. -/
structure CreateResult0 where
  status : Nat
  store : List Electrician0
  created : Option Electrician0
deriving DecidableEq

/-- `create` of the variant service (src/unnamed/part_000 lines 82-109):
400 `Icorrect body` on a decode error with no insert, else insert and 201,
or 500 on insert failure. -/
def create0 (store : List Electrician0) (insertFails : Bool) (body : Body0) :
    CreateResult0 :=
  match body with
  | .invalid0 => ⟨400, store, none⟩
  | .decodes0 e =>
    if insertFails then ⟨500, store, none⟩
    else ⟨201, store ++ [e], some e⟩

/-- Claim C5: on a create request whose JSON body fails to decode, both
variants of the handler respond 400 and leave the store untouched — the
insert call is never reached. -/
theorem create_badBody_no_insert (freshId : String) (store : List Electrician)
    (iF : Bool) (store0 : List Electrician0) (iF0 : Bool) :
    create freshId store iF .invalid = ⟨400, store, none⟩ ∧
    create0 store0 iF0 .invalid0 = ⟨400, store0, none⟩ :=
  ⟨rfl, rfl⟩

/-- Counterexample to claim C8 as stated: a decodable body carrying no
coordinates still gets the geo discriminator set on the stored and echoed
record — the assignment is unconditional. -/
theorem create_type_unconditional_cex :
    ((create "f" [] false
          (.decodes ⟨none, "n", "", "", "", "", "", "", none⟩)).created.map
        (fun e => e.location.type)) = some "Point" := rfl

/-- Claim C8 (amended): the `create` handler sets the geo `type`
discriminator to `Point` on every record it builds from a successfully
decoded body, whether or not the body supplied coordinates. -/
theorem create_type_always_set (freshId : String) (store : List Electrician)
    (iF : Bool) (bf : BodyFields) :
    ∃ e : Electrician, e.location.type = "Point" ∧
      create freshId store iF (.decodes bf) =
        if iF then ⟨500, store, none⟩ else ⟨201, store ++ [e], some e⟩ := by
  refine ⟨buildElectrician freshId bf, rfl, ?_⟩
  cases iF <;> rfl

/-- Whether a character is an ASCII hex digit (`encoding/hex` accepts both
cases). -/
def isHexDigit (c : Char) : Bool :=
  (decide ('0' ≤ c) && decide (c ≤ '9')) ||
  (decide ('a' ≤ c) && decide (c ≤ 'f')) ||
  (decide ('A' ≤ c) && decide (c ≤ 'F'))

/-- The strings `bson.ObjectIdHex` accepts without panicking:
`hex.DecodeString` succeeds and the decoded value is 12 bytes, i.e. length
24 and every character a hex digit. -/
def validObjectIdHex (s : String) : Bool :=
  (s.length == 24) && s.toList.all isHexDigit

/-- `bson.ObjectIdHex` (mgo): decode the hex string to a 12-byte ObjectId,
panicking on any other input.  ObjectIds are represented by their lowercase
hex rendering, so the conversion lowercases. -/
def objectIdHex (s : String) : GoRes String :=
  if validObjectIdHex s then .ok s.toLower else .panics

/-- Observable outcome of one run of the delete handler: a response
(status and message) or a panic that produces no response. -/
inductive DeleteOutcome where
  | response (status : Nat) (message : String)
  | panics
deriving DecidableEq

/-- `delete` (src/main.go lines 276-300): convert the path id with
`bson.ObjectIdHex` (panicking on malformed input), then `RemoveId` — 404
`Electrician not found` on `mgo.ErrNotFound`, 500 `Database error` on any
other store error, else 200 `electrician_deleted`.  The store is the list
of ObjectIds present; `dbFails` injects the non-not-found store failure. -/
def deleteHandler (store : List String) (dbFails : Bool) (id : String) :
    DeleteOutcome × List String :=
  match objectIdHex id with
  | .ok oid =>
    if dbFails then (.response 500 "Database error", store)
    else if oid ∈ store then (.response 200 "electrician_deleted", store.erase oid)
    else (.response 404 "Electrician not found", store)
  | _ => (.panics, store)

/-- Claim C9: the delete handler produces an HTTP response (200, 404 or
500) exactly when the path identifier is a valid 24-character hex ObjectId
string; on every other identifier the conversion panics before the store is
queried — in particular no 404 is returned for a malformed identifier. -/
theorem delete_requires_valid_objectId (store : List String) (dbFails : Bool)
    (id : String) :
    (validObjectIdHex id = false →
      deleteHandler store dbFails id = (.panics, store)) ∧
    (validObjectIdHex id = true →
      ∃ st msg store2,
        deleteHandler store dbFails id = (.response st msg, store2) ∧
        (st = 200 ∨ st = 404 ∨ st = 500)) := by
  constructor
  · intro h
    simp [deleteHandler, objectIdHex, h]
  · intro h
    cases hdb : dbFails with
    | true =>
      exact ⟨500, "Database error", store,
        by simp [deleteHandler, objectIdHex, h], Or.inr (Or.inr rfl)⟩
    | false =>
      by_cases hm : id.toLower ∈ store
      · exact ⟨200, "electrician_deleted", store.erase id.toLower,
          by simp [deleteHandler, objectIdHex, h, hm], Or.inl rfl⟩
      · exact ⟨404, "Electrician not found", store,
          by simp [deleteHandler, objectIdHex, h, hm], Or.inr (Or.inl rfl)⟩

/-- Witness for `delete_requires_valid_objectId`: the identifier `zz`
panics; a well-formed 24-character hex identifier gets a response. -/
theorem delete_requires_valid_objectId_witness :
    deleteHandler [] false "zz" = (.panics, []) ∧
    ∃ st msg store2,
      deleteHandler [] false "0123456789abcdef01234567" =
        (.response st msg, store2) ∧
      (st = 200 ∨ st = 404 ∨ st = 500) :=
  ⟨(delete_requires_valid_objectId [] false "zz").1 (by decide),
   (delete_requires_valid_objectId [] false "0123456789abcdef01234567").2
     (by decide)⟩

/-- A numeric query-parameter string, classified by how `strconv` reads it:
a decimal integer literal (accepted by both `ParseInt` and `ParseFloat`), a
float-only literal (rejected by `ParseInt`, accepted by `ParseFloat`), or a
string neither accepts. -/
inductive ParamStr where
  | intStr (n : Int)
  | floatStr (q : Rat)
  | bad
deriving DecidableEq

/-- `strconv.ParseInt` of the string, base 10, 64 bits. -/
def parseIntGo : ParamStr → GoRes Int
  | .intStr n => .ok n
  | .floatStr _ => .error "invalid syntax"
  | .bad => .error "invalid syntax"

/-- `strconv.ParseFloat` of the string with the error discarded, as at the
`lon` and `lat` call sites: the value returned alongside a syntax error
is 0. -/
def parseFloatGo : ParamStr → Rat
  | .intStr n => (n : Rat)
  | .floatStr q => q
  | .bad => 0

/-- The query string of a search request: for each recognized parameter,
`none` when the key is absent from `r.URL.Query()` and the value list
otherwise. -/
structure SearchRequest where
  skip : Option (List ParamStr)
  limit : Option (List ParamStr)
  text : Option (List String)
  hint : Option (List String)
  lon : Option (List ParamStr)
  lat : Option (List ParamStr)
deriving DecidableEq

/-- The proximity filter: a point and the maximum distance. -/
structure NearFilter where
  lon : Rat
  lat : Rat
  maxDistance : Int
deriving DecidableEq

/-- The `bson.M` query `search` builds: an optional full-text filter, an
optional case-insensitive name regex filter (pattern and options, the
options being `i`), and an optional proximity filter; present fields are
conjoined by the store. -/
structure SearchQuery where
  text : Option String
  name : Option (String × String)
  location : Option NearFilter
deriving DecidableEq

/-- The store call `Find(query).Skip(skip).Limit(limit).Sort("name")`
issued at the end of `search`. -/
structure FindCall where
  query : SearchQuery
  skip : Int
  limit : Int
  sort : String
deriving DecidableEq

/-- `search` (src/main.go lines 142-243).  Defaults are `Skip 0`,
`Limit 10`, `LocationScope 90000`.  A `skip` value that fails `ParseInt`
panics.  The `limit` branch is guarded by the length of the *skip* value
list, not the limit list — so a supplied limit is parsed only when a skip
parameter is also present, indexing `limitQuery` panics when the limit list
is empty while skip is non-empty, and a failing limit parse panics.  The
`text` and `hint` filters are added only for a non-empty string; the hint
becomes the case-insensitive regex anchored with a caret; the proximity
filter is added when the parsed longitude is positive, with the default
radius. -/
def search (req : SearchRequest) : GoRes FindCall :=
  let skipList : List ParamStr := req.skip.getD []
  let skipStep : GoRes Int :=
    match req.skip with
    | none => .ok 0
    | some sq =>
      match sq with
      | [] => .ok 0
      | s0 :: _ =>
        match parseIntGo s0 with
        | .ok n => .ok n
        | _ => .panics
  match skipStep with
  | .ok skipVal =>
    let limitStep : GoRes Int :=
      match req.limit with
      | none => .ok 10
      | some lq =>
        if skipList.length > 0 then
          match lq with
          | [] => .panics
          | l0 :: _ =>
            match parseIntGo l0 with
            | .ok n => .ok n
            | _ => .panics
        else .ok 10
    match limitStep with
    | .ok limitVal =>
      let textVal : String :=
        match req.text with
        | some (t0 :: _) => t0
        | _ => ""
      let hintVal : String :=
        match req.hint with
        | some (h0 :: _) => h0
        | _ => ""
      let lonVal : Rat :=
        match req.lon with
        | some (l0 :: _) => parseFloatGo l0
        | _ => 0
      let latVal : Rat :=
        match req.lat with
        | some (l0 :: _) => parseFloatGo l0
        | _ => 0
      .ok
        { query :=
            { text := if textVal ≠ "" then some textVal else none
              name := if hintVal ≠ "" then some ("^" ++ hintVal, "i") else none
              location := if 0 < lonVal then some ⟨lonVal, latVal, 90000⟩ else none }
          skip := skipVal
          limit := limitVal
          sort := "name" }
    | _ => .panics
  | _ => .panics

/-- Counterexample to claim C6 as stated: supplying the text parameter with
an empty value adds no full-text filter, though the parameter was
supplied. -/
theorem search_emptyText_cex :
    search ⟨none, none, some [""], none, none, none⟩ =
      .ok ⟨⟨none, none, none⟩, 0, 10, "name"⟩ := rfl

/-- Claim C6 (amended): over well-formed single-valued parameters, the
store query is the conjunction of exactly these filters — a full-text
filter when a non-empty text value is supplied, a case-insensitive
name-prefix regex when a non-empty hint value is supplied, and a proximity
filter with the default radius 90000 when the supplied longitude is
positive; skip defaults to 0, limit defaults to 10 (a supplied limit takes
effect only when a skip parameter is also present), and the call sorts by
name with skip and limit applied. -/
theorem search_query_construction (sk li : Option Int) (tx hi : Option String)
    (lo la : Option Rat) :
    search ⟨sk.map (fun n => [.intStr n]), li.map (fun n => [.intStr n]),
        tx.map (fun s => [s]), hi.map (fun s => [s]),
        lo.map (fun q => [.floatStr q]), la.map (fun q => [.floatStr q])⟩ =
      .ok { query :=
              { text := if tx.getD "" ≠ "" then some (tx.getD "") else none
                name := if hi.getD "" ≠ "" then some ("^" ++ hi.getD "", "i") else none
                location :=
                  if 0 < lo.getD 0 then some ⟨lo.getD 0, la.getD 0, 90000⟩
                  else none }
            skip := sk.getD 0
            limit := if sk.isSome then li.getD 10 else 10
            sort := "name" } := by
  cases sk <;> cases li <;> cases tx <;> cases hi <;> cases lo <;> cases la <;> rfl

/-- Counterexample to claim C7 as stated: a malformed `lon` value does not
panic — the `ParseFloat` error is discarded and the request proceeds with
no proximity filter. -/
theorem search_badLon_no_panic_cex :
    search ⟨none, none, none, none, some [ParamStr.bad], none⟩ =
      .ok ⟨⟨none, none, none⟩, 0, 10, "name"⟩ := rfl

/-- Claim C7 (amended): a malformed `skip` value always panics; a malformed
`limit` value panics exactly when a skip parameter is also supplied (the
guard tests the skip list); malformed `lon` and `lat` values never panic —
their parse errors are discarded and the values fall back to 0, so no
proximity filter is added. -/
theorem search_malformed_numeric (tx hi : Option (List String)) :
    (∀ sq li2 lo la,
      search ⟨some (ParamStr.bad :: sq), li2, tx, hi, lo, la⟩ = .panics) ∧
    (∀ (n : Int) sq lq lo la,
      search ⟨some (.intStr n :: sq), some (ParamStr.bad :: lq), tx, hi, lo, la⟩ =
        .panics) ∧
    (∀ lr ar, ∃ fc,
      search ⟨none, none, tx, hi, some (ParamStr.bad :: lr),
          some (ParamStr.bad :: ar)⟩ = .ok fc ∧
      fc.query.location = none) := by
  refine ⟨fun sq li2 lo la => rfl, ?_, fun lr ar => ⟨_, rfl, rfl⟩⟩
  intro n sq lq lo la
  simp [search, parseIntGo]

/-- Claim C10: when a limit parameter is supplied but no skip parameter,
the supplied limit — whatever its values — is ignored: the parsing branch
is guarded on the skip list's length, so the call runs with the default
limit 10 (and skip 0). -/
theorem search_limit_requires_skip (lq : List ParamStr)
    (tx hi : Option (List String)) (lo la : Option (List ParamStr)) :
    ∃ fc, search ⟨none, some lq, tx, hi, lo, la⟩ = .ok fc ∧
      fc.limit = 10 ∧ fc.skip = 0 := by
  refine ⟨_, rfl, rfl, rfl⟩

end Svc
